import Mathlib

/-!
Verification of the regru-go DNS client library (package `regru`).

The Go sources are shallowly embedded: pure helpers become Lean functions,
the HTTP transport becomes an oracle script of pre-decoded responses plus a
trace of issued network calls, and fallible Go functions return `Except`.
Machine integers (`int`) are modelled as `Int`; the dynamically typed JSON
`interface{}` values carried by the wire (`service_id`, `prio`) are modelled
by the sum type `GoValue` of the shapes the decoder can produce
(absent / integer / IEEE number, modelled exactly as a rational / string).
-/

namespace Regru

/-! ## Decimal strings

`natDecStr`/`intDecStr` model Go `fmt.Sprintf("%d", v)`; `fmtFloat0` models
`fmt.Sprintf("%.0f", v)` (zero fractional digits, round half to even, the
sign printed separately from the rounded magnitude, as Go does).
`parseDecimal` is a specification-side denotation of decimal strings, used to
state exactness of the formatting ("shortest exact decimal representation"
in the specification). -/

/-- The character for a single decimal digit. -/
def decDigitChar (d : Nat) : Char :=
  match d with
  | 0 => '0' | 1 => '1' | 2 => '2' | 3 => '3' | 4 => '4'
  | 5 => '5' | 6 => '6' | 7 => '7' | 8 => '8' | _ => '9'

/-- Little-endian decimal digits of `n`; the first argument is fuel
(`natDigits` passes `n` itself, which is enough since `n / 10 < n`). -/
def natDigitsAux : Nat → Nat → List Nat
  | _, 0 => []
  | 0, _ + 1 => []
  | fuel + 1, n + 1 => ((n + 1) % 10) :: natDigitsAux fuel ((n + 1) / 10)

/-- Little-endian decimal digits of `n` (empty for `0`). -/
def natDigits (n : Nat) : List Nat := natDigitsAux n n

/-- Decimal string of a natural number, as printed by Go `%d`. -/
def natDecStr (n : Nat) : String :=
  if n = 0 then "0" else String.mk (((natDigits n).map decDigitChar).reverse)

/-- Decimal string of an integer, as printed by Go `%d`. -/
def intDecStr (n : Int) : String :=
  if n < 0 then "-" ++ natDecStr n.natAbs else natDecStr n.natAbs

/-- Floor of a rational, computed on the numerator and denominator. -/
def ratFloor (q : ℚ) : Int := q.num.fdiv q.den

/-- Round to the nearest integer, ties to even (the rounding used by Go's
`%.0f` formatting of an exactly-represented value). The fractional part
`q - ⌊q⌋` equals `(q.num - ⌊q⌋ * q.den) / q.den`, so it is compared with
`1 / 2` by comparing twice its numerator with the denominator. -/
def roundHalfEven (q : ℚ) : Int :=
  let f := ratFloor q
  let r2 := 2 * (q.num - f * (q.den : Int))
  if r2 < (q.den : Int) then f
  else if (q.den : Int) < r2 then f + 1
  else if f % 2 = 0 then f else f + 1

/-- Go `fmt.Sprintf("%.0f", v)`: the sign of `v`, then the magnitude rounded
to an integer (half to even) in decimal. -/
def fmtFloat0 (q : ℚ) : String :=
  (if q < 0 then "-" else "") ++
    natDecStr (roundHalfEven (if q < 0 then -q else q)).toNat

/-- Numeric value of a decimal digit character. -/
def decDigitVal (c : Char) : Nat := c.toNat - 48

/-- Whether a character is a decimal digit. -/
def isDecDigit (c : Char) : Bool := 48 ≤ c.toNat && c.toNat ≤ 57

/-- Value of a little-endian list of decimal digits. -/
def decValLE : List Nat → Nat
  | [] => 0
  | d :: ds => d + 10 * decValLE ds

/-- Parse a non-empty all-digit character list as a natural number. -/
def parseNatDigits (cs : List Char) : Option Nat :=
  if !cs.isEmpty && cs.all isDecDigit then
    some (decValLE ((cs.map decDigitVal).reverse))
  else none

/-- Split a character list at the first dot, if any. -/
def splitDot : List Char → List Char × Option (List Char)
  | [] => ([], none)
  | c :: cs =>
    if c = '.' then ([], some cs)
    else
      let p := splitDot cs
      (c :: p.1, p.2)

/-- Denotation of an unsigned decimal string (integer part, optional
fractional part). -/
def parseDecimalCore (cs : List Char) : Option ℚ :=
  let p := splitDot cs
  match p.2 with
  | none => (parseNatDigits p.1).map (fun n => (n : ℚ))
  | some fs =>
    match parseNatDigits p.1, parseNatDigits fs with
    | some n, some m => some ((n : ℚ) + (m : ℚ) / (10 : ℚ) ^ fs.length)
    | _, _ => none

/-- Denotation of a decimal string with an optional leading minus sign;
`none` when the string is not a plain decimal numeral. -/
def parseDecimal (s : String) : Option ℚ :=
  match s.data with
  | [] => none
  | c :: cs => if c = '-' then (parseDecimalCore cs).map Neg.neg
               else parseDecimalCore (c :: cs)

/-! ## Wire values and the `Service` normalization layer
(`api_response.go`) -/

/-- A dynamically typed JSON value as decoded into a Go `interface{}` field:
absent (`nil`), an integer, a floating-point number (modelled exactly as a
rational), or a string. -/
inductive GoValue where
  | vNil
  | vInt (n : Int)
  | vFloat (q : ℚ)
  | vStr (s : String)
deriving DecidableEq

/-- A service entry of the `service/get_list` response, with both historical
spellings of the service-type and domain-name fields. -/
structure Service where
  serviceType : String := ""
  servType : String := ""
  domain : String := ""
  dname : String := ""
  serviceID : GoValue := .vNil
deriving DecidableEq

/-- `Service.GetServiceType`: the service type, checking both field names. -/
def Service.GetServiceType (s : Service) : String :=
  if s.serviceType ≠ "" then s.serviceType else s.servType

/-- `Service.GetDomain`: the domain name, checking both field names. -/
def Service.GetDomain (s : Service) : String :=
  if s.domain ≠ "" then s.domain else s.dname

/-- `Service.GetServiceID`: the service id rendered as a string
(`%d` for an integer, `%.0f` for a float, strings pass through, and the
`default` branch prints a nil `interface{}` as `%v` does). -/
def Service.GetServiceID (s : Service) : String :=
  match s.serviceID with
  | .vInt n => intDecStr n
  | .vFloat q => fmtFloat0 q
  | .vStr str => str
  | .vNil => "<nil>"

/-! ## Domain model (`models.go`) -/

/-- A DNS record (canonical domain model). -/
structure DNSRecord where
  Content : String := ""
  ID : String := ""
  Name : String := ""
  Proxied : Bool := false
  TTL : Int := 0
  type : String := ""
deriving DecidableEq

/-- Parameters for creating a DNS record. -/
structure CreateDNSRecordParams where
  Content : String := ""
  ID : String := ""
  Name : String := ""
  Proxied : Bool := false
  TTL : Int := 0
  type : String := ""
  ZoneID : String := ""
  ZoneName : String := ""
deriving DecidableEq

/-- Parameters for listing DNS records. -/
structure ListDNSRecordsParams where
  Content : String := ""
  ID : String := ""
  Name : String := ""
  Proxied : Bool := false
  TTL : Int := 0
  type : String := ""
  ZoneID : String := ""
  ZoneName : String := ""
deriving DecidableEq

/-- A DNS zone. -/
structure Zone where
  ID : String := ""
  Name : String := ""
  NameServers : List String := []
  Status : String := ""
deriving DecidableEq

/-- The fixed enumeration of supported record types
(`RecordTypeA` .. `RecordTypeTXT` in `models.go`). -/
def supportedRecordTypes : List String := ["A", "AAAA", "CNAME", "MX", "NS", "TXT"]

/-! ## Request shapes (`api_request.go`)

Credential injection (`BaseRequest.SetCredentials`) happens inside the
transport immediately before serialization and is orthogonal to every claim
under verification, so the username/password fields are not modelled. -/

/-- A domain entry in `add_*` requests (only `dname`). -/
structure AddAliasDomain where
  dname : String
deriving DecidableEq

/-- Parameters for `zone/add_alias` (A records). -/
structure AddAliasRequest where
  domains : List AddAliasDomain
  subdomain : String
  ipaddr : String
  ttl : Int := 0
deriving DecidableEq

/-- Parameters for `zone/add_aaaa`. -/
structure AddAAAARequest where
  domains : List AddAliasDomain
  subdomain : String
  ipaddr : String
  ttl : Int := 0
deriving DecidableEq

/-- Parameters for `zone/add_cname`. -/
structure AddCNAMERequest where
  domains : List AddAliasDomain
  subdomain : String
  canonicalName : String
  ttl : Int := 0
deriving DecidableEq

/-- Parameters for `zone/add_mx`. -/
structure AddMXRequest where
  domains : List AddAliasDomain
  subdomain : String
  mailServer : String
  ttl : Int := 0
deriving DecidableEq

/-- Parameters for `zone/add_ns`. -/
structure AddNSRequest where
  domains : List AddAliasDomain
  subdomain : String
  dnsServer : String
  recordNumber : String := ""
  ttl : Int := 0
deriving DecidableEq

/-- Parameters for `zone/add_txt`. -/
structure AddTXTRequest where
  domains : List AddAliasDomain
  subdomain : String
  text : String
  ttl : Int := 0
deriving DecidableEq

/-- A domain entry in `zone/remove_record` requests. -/
structure RemoveRecordDomain where
  dname : String
deriving DecidableEq

/-- Parameters for `zone/remove_record`: `subdomain`, `content` and
`record_type` are at the request level. -/
structure RemoveRecordRequest where
  domains : List RemoveRecordDomain
  subdomain : String
  content : String
  recordType : String
deriving DecidableEq

/-- Parameters for `service/get_list`. -/
structure ServiceListRequest where
  pageSize : Int := 0
deriving DecidableEq

/-- A domain entry in `zone/get_resource_records` requests. -/
structure ZoneGetResourceRecordsDomain where
  dname : String
deriving DecidableEq

/-- Parameters for `zone/get_resource_records`. -/
structure ZoneGetResourceRecordsRequest where
  domains : List ZoneGetResourceRecordsDomain
deriving DecidableEq

/-- The closed sum of concrete implementors of the Go `APIRequest`
interface, as produced by the request-shaping layer (the six typed remove
wrappers all embed a `RemoveRecordRequest`). -/
inductive APIRequestU where
  | addAlias (r : AddAliasRequest)
  | addAAAA (r : AddAAAARequest)
  | addCNAME (r : AddCNAMERequest)
  | addMX (r : AddMXRequest)
  | addNS (r : AddNSRequest)
  | addTXT (r : AddTXTRequest)
  | removeAlias (r : RemoveRecordRequest)
  | removeAAAA (r : RemoveRecordRequest)
  | removeCNAME (r : RemoveRecordRequest)
  | removeMX (r : RemoveRecordRequest)
  | removeNS (r : RemoveRecordRequest)
  | removeTXT (r : RemoveRecordRequest)
  | serviceList (r : ServiceListRequest)
  | zoneGetResourceRecords (r : ZoneGetResourceRecordsRequest)
deriving DecidableEq

/-- The serialized `ttl` field of a shaped request: every add request
declares `ttl` with the `omitempty` JSON option, so the field is present in
the wire payload exactly when its value is nonzero. -/
def APIRequestU.ttlField : APIRequestU → Option Int
  | .addAlias r => if r.ttl = 0 then none else some r.ttl
  | .addAAAA r => if r.ttl = 0 then none else some r.ttl
  | .addCNAME r => if r.ttl = 0 then none else some r.ttl
  | .addMX r => if r.ttl = 0 then none else some r.ttl
  | .addNS r => if r.ttl = 0 then none else some r.ttl
  | .addTXT r => if r.ttl = 0 then none else some r.ttl
  | _ => none

/-! ## Response shapes (`api_response.go`) -/

/-- The result of an operation on one domain. -/
structure DomainResult where
  dname : String := ""
  result : String := ""
  dnsID : String := ""
deriving DecidableEq

/-- Answer of `zone/add_*`. -/
structure AddNSAnswer where
  domains : List DomainResult := []
deriving DecidableEq

/-- Response of `zone/add_*`. -/
structure AddNSResponse where
  answer : AddNSAnswer := {}
deriving DecidableEq

/-- Answer of `service/get_list`. -/
structure ServiceListAnswer where
  services : List Service := []
deriving DecidableEq

/-- Response of `service/get_list`. -/
structure ServiceListResponse where
  answer : ServiceListAnswer := {}
deriving DecidableEq

/-- One resource record of a `zone/get_resource_records` answer. Note this
decoder exposes no `ttl` and no `dns_id` field. -/
structure ResourceRecord where
  content : String := ""
  prio : GoValue := .vNil
  rectype : String := ""
  state : String := ""
  subname : String := ""
deriving DecidableEq

/-- SOA information of a `zone/get_resource_records` answer. -/
structure SOAInfo where
  minimumTTL : String := ""
  ttl : String := ""
deriving DecidableEq

/-- One domain of a `zone/get_resource_records` answer. -/
structure DomainWithResourceRecords where
  dname : String := ""
  result : String := ""
  rrs : List ResourceRecord := []
  serviceID : String := ""
  soa : Option SOAInfo := none
deriving DecidableEq

/-- Answer of `zone/get_resource_records`. -/
structure ZoneGetResourceRecordsAnswer where
  domains : List DomainWithResourceRecords := []
deriving DecidableEq

/-- Response of `zone/get_resource_records`. -/
structure ZoneGetResourceRecordsResponse where
  answer : ZoneGetResourceRecordsAnswer := {}
  result : String := ""
deriving DecidableEq

/-! ## Error taxonomy (`errors.go`) -/

/-- The errors a client operation can return: the typed errors of
`errors.go` plus `wrapped` for the untyped `fmt.Errorf` failures
(marshalling, transport execution, body read, response parse). -/
inductive RegError where
  | httpError (statusCode : Nat) (body : String)
  | apiError (message : String)
  | unsupportedRecordType (recordType : String)
  | recordNotFound (recordName : String)
  | zoneNotFound (zoneID : String)
  | wrapped (msg : String)
deriving DecidableEq

/-- `errors.Is(err, ErrUnsupportedRecordType)` classification. -/
def RegError.isUnsupportedRecordType : RegError → Bool
  | .unsupportedRecordType _ => true
  | _ => false

/-- `errors.Is(err, ErrRecordNotFound)` classification. -/
def RegError.isRecordNotFound : RegError → Bool
  | .recordNotFound _ => true
  | _ => false

/-! ## Transport (`client.go`, `apiRequest`)

The single HTTP round trip is modelled at two levels. `apiRequestClassify`
captures the classification `apiRequest` applies to a raw HTTP response
(status check, then envelope error check); the body decoding of
`json.Unmarshal` into `APIResponse` is abstracted as a
`decodeErrorText` function (`none` models an unmarshal failure, which the
code ignores; `some ""` models a body without an `error_text` field).
`apiRequestM` is the operation-level oracle: a script of pre-decoded
results consumed one per call, recording each issued call in a trace. -/

/-- A raw HTTP response: status code and body. -/
structure HTTPResponse where
  statusCode : Nat
  body : String
deriving DecidableEq

/-- The status/envelope classification performed by `Client.apiRequest`:
a status different from 200 (`http.StatusOK`) yields `HTTPError` with that
status and the raw body; otherwise a decoded non-empty `error_text` yields
`APIError`; otherwise the raw body is returned. -/
def apiRequestClassify (decodeErrorText : String → Option String)
    (resp : HTTPResponse) : Except RegError String :=
  if resp.statusCode ≠ 200 then .error (.httpError resp.statusCode resp.body)
  else
    match decodeErrorText resp.body with
    | some t => if t ≠ "" then .error (.apiError t) else .ok resp.body
    | none => .ok resp.body

/-- Whether a status code is in the 2xx success class. -/
def is2xx (statusCode : Nat) : Bool := 200 ≤ statusCode && statusCode < 300

/-- Claim C5 as stated: `apiRequest` classifies by the 2xx class — every
non-2xx response an `HTTPError` with exact status and literal body, every
2xx response with a decoded non-empty `error_text` an `APIError` with that
text, and every other 2xx response a success carrying the raw body. -/
def apiRequestClassifiesBy2xx : Prop :=
  ∀ (dec : String → Option String) (resp : HTTPResponse),
    (is2xx resp.statusCode = false →
      apiRequestClassify dec resp = .error (.httpError resp.statusCode resp.body)) ∧
    (∀ t, is2xx resp.statusCode = true → dec resp.body = some t → t ≠ "" →
      apiRequestClassify dec resp = .error (.apiError t)) ∧
    (is2xx resp.statusCode = true → (dec resp.body = none ∨ dec resp.body = some "") →
      apiRequestClassify dec resp = .ok resp.body)

/-- A pre-decoded successful response body, by endpoint family. -/
inductive ApiAnswer where
  | addNS (r : AddNSResponse)
  | serviceList (r : ServiceListResponse)
  | zoneRRs (r : ZoneGetResourceRecordsResponse)
deriving DecidableEq

/-- Decidable equality for `Except` results (not provided by the core
library). -/
instance exceptDecEq {ε α : Type} [DecidableEq ε] [DecidableEq α] :
    DecidableEq (Except ε α) := fun a b =>
  match a, b with
  | .error x, .error y =>
    if h : x = y then .isTrue (congrArg Except.error h)
    else .isFalse (fun hh => h (Except.error.inj hh))
  | .ok x, .ok y =>
    if h : x = y then .isTrue (congrArg Except.ok h)
    else .isFalse (fun hh => h (Except.ok.inj hh))
  | .error _, .ok _ => .isFalse (fun hh => Except.noConfusion hh)
  | .ok _, .error _ => .isFalse (fun hh => Except.noConfusion hh)

/-- One recorded network call: endpoint path and shaped payload. -/
structure NetCall where
  path : String
  payload : APIRequestU
deriving DecidableEq

/-- Transport state: the remaining script of responses and the trace of
calls issued so far. -/
structure NetState where
  script : List (Except RegError ApiAnswer)
  calls : List NetCall
deriving DecidableEq

/-- One call through `Client.apiRequest`: consumes the next scripted result
(an exhausted script behaves as a failed `httpClient.Do`) and records
exactly one network call. -/
def apiRequestM (st : NetState) (path : String) (req : APIRequestU) :
    Except RegError ApiAnswer × NetState :=
  (match st.script with
   | [] => .error (.wrapped "failed to execute request")
   | r :: _ => r,
   { script := st.script.drop 1, calls := st.calls ++ [⟨path, req⟩] })

/-! ## Request shaping (`client.go`) -/

/-- `getAddRecordPath`: the per-type creation endpoint. -/
def getAddRecordPath (recordType : String) : Except RegError String :=
  if recordType = "A" then .ok "zone/add_alias"
  else if recordType = "AAAA" then .ok "zone/add_aaaa"
  else if recordType = "CNAME" then .ok "zone/add_cname"
  else if recordType = "MX" then .ok "zone/add_mx"
  else if recordType = "NS" then .ok "zone/add_ns"
  else if recordType = "TXT" then .ok "zone/add_txt"
  else .error (.unsupportedRecordType recordType)

/-- `getRemoveRecordPath`: all supported record types share the single
removal endpoint `zone/remove_record`. -/
def getRemoveRecordPath (recordType : String) : Except RegError String :=
  if recordType = "A" ∨ recordType = "AAAA" ∨ recordType = "CNAME" ∨
     recordType = "MX" ∨ recordType = "NS" ∨ recordType = "TXT" then
    .ok "zone/remove_record"
  else .error (.unsupportedRecordType recordType)

/-- `createAddRecordRequest`: build the per-type creation payload. Each
branch places the record value under its own field name at request level
and sets `ttl` only when `params.TTL > 0` (otherwise the field keeps the
zero value, which `omitempty` drops from the wire). -/
def createAddRecordRequest (zone : String) (params : CreateDNSRecordParams) :
    Except RegError APIRequestU :=
  if params.type = "A" then
    .ok (.addAlias
      { domains := [⟨zone⟩], subdomain := params.Name, ipaddr := params.Content,
        ttl := if params.TTL > 0 then params.TTL else 0 })
  else if params.type = "AAAA" then
    .ok (.addAAAA
      { domains := [⟨zone⟩], subdomain := params.Name, ipaddr := params.Content,
        ttl := if params.TTL > 0 then params.TTL else 0 })
  else if params.type = "CNAME" then
    .ok (.addCNAME
      { domains := [⟨zone⟩], subdomain := params.Name, canonicalName := params.Content,
        ttl := if params.TTL > 0 then params.TTL else 0 })
  else if params.type = "MX" then
    .ok (.addMX
      { domains := [⟨zone⟩], subdomain := params.Name, mailServer := params.Content,
        ttl := if params.TTL > 0 then params.TTL else 0 })
  else if params.type = "NS" then
    .ok (.addNS
      { domains := [⟨zone⟩], subdomain := params.Name, dnsServer := params.Content,
        ttl := if params.TTL > 0 then params.TTL else 0 })
  else if params.type = "TXT" then
    .ok (.addTXT
      { domains := [⟨zone⟩], subdomain := params.Name, text := params.Content,
        ttl := if params.TTL > 0 then params.TTL else 0 })
  else .error (.unsupportedRecordType params.type)

/-- `createRemoveRecordRequest`: one shared removal payload shape
(`dname` list, plus `subdomain`/`content`/`record_type` at request level),
wrapped in the per-type request type. -/
def createRemoveRecordRequest (zone : String) (rr : DNSRecord) :
    Except RegError APIRequestU :=
  let req : RemoveRecordRequest :=
    { domains := [⟨zone⟩], subdomain := rr.Name, content := rr.Content,
      recordType := rr.type }
  if rr.type = "A" then .ok (.removeAlias req)
  else if rr.type = "AAAA" then .ok (.removeAAAA req)
  else if rr.type = "CNAME" then .ok (.removeCNAME req)
  else if rr.type = "MX" then .ok (.removeMX req)
  else if rr.type = "NS" then .ok (.removeNS req)
  else if rr.type = "TXT" then .ok (.removeTXT req)
  else .error (.unsupportedRecordType rr.type)

/-! ## Domain operations (`client.go`) -/

/-- `Client.AddRR`: resolve the path, shape the payload, perform the call,
decode an `AddNSResponse`, build the record from the caller's parameters and
overlay the remote id when the first domain result reports success. -/
def AddRR (st : NetState) (zone : String) (params : CreateDNSRecordParams) :
    Except RegError DNSRecord × NetState :=
  match getAddRecordPath params.type with
  | .error e => (.error e, st)
  | .ok path =>
    match createAddRecordRequest zone params with
    | .error e => (.error e, st)
    | .ok apiReq =>
      match apiRequestM st path apiReq with
      | (.error e, st1) => (.error e, st1)
      | (.ok (.addNS resp), st1) =>
        let record : DNSRecord :=
          { Name := params.Name, type := params.type,
            Content := params.Content, TTL := params.TTL }
        match resp.answer.domains with
        | [] => (.ok record, st1)
        | domain :: _ =>
          if domain.result = "success" then
            (.ok { record with ID := domain.dnsID }, st1)
          else (.ok record, st1)
      | (.ok _, st1) => (.error (.wrapped "failed to parse response"), st1)

/-- `Client.DeleteRR`: resolve the removal path, shape the payload, perform
the call and discard the response body. -/
def DeleteRR (st : NetState) (zone : String) (rr : DNSRecord) :
    Except RegError Unit × NetState :=
  match getRemoveRecordPath rr.type with
  | .error e => (.error e, st)
  | .ok path =>
    match createRemoveRecordRequest zone rr with
    | .error e => (.error e, st)
    | .ok apiReq =>
      match apiRequestM st path apiReq with
      | (.error e, st1) => (.error e, st1)
      | (.ok _, st1) => (.ok (), st1)

/-- `Client.UpdateRR`: delete the old record, then create a new one from
the record's fields; a delete failure returns immediately. -/
def UpdateRR (st : NetState) (zone : String) (rr : DNSRecord) :
    Except RegError DNSRecord × NetState :=
  match DeleteRR st zone rr with
  | (.error e, st1) => (.error e, st1)
  | (.ok _, st1) =>
    AddRR st1 zone
      { Name := rr.Name, type := rr.type, Content := rr.Content, TTL := rr.TTL }

/-- The zone built from one service entry of the listing, when the entry is
classified as a domain (the loop body of `Client.ListZones`). -/
def zoneOfService (service : Service) : Option Zone :=
  if service.GetServiceType = "domain" then
    some { Name := service.GetDomain, ID := service.GetServiceID }
  else none

/-- `Client.ListZones`: fetch `service/get_list` (page size 1000) and keep
exactly the services whose canonical service type is `domain`. -/
def ListZones (st : NetState) : Except RegError (List Zone) × NetState :=
  match apiRequestM st "service/get_list" (.serviceList { pageSize := 1000 }) with
  | (.error e, st1) => (.error e, st1)
  | (.ok (.serviceList resp), st1) =>
    (.ok (resp.answer.services.filterMap zoneOfService), st1)
  | (.ok _, st1) => (.error (.wrapped "failed to parse response"), st1)

/-- `Client.ListZonesByName`: the zone listing filtered by exact name. -/
def ListZonesByName (st : NetState) (name : String) :
    Except RegError (List Zone) × NetState :=
  match ListZones st with
  | (.error e, st1) => (.error e, st1)
  | (.ok zones, st1) => (.ok (zones.filter (fun z => z.Name = name)), st1)

/-- The canonical record built from one wire resource record: the
`zone/get_resource_records` decoder exposes neither `ttl` nor `dns_id`, so
`TTL` and `ID` keep their zero values. -/
def normalizeRR (rr : ResourceRecord) : DNSRecord :=
  { Name := rr.subname, type := rr.rectype, Content := rr.content }

/-- The inner loop body of `Client.ListRecords`: normalize one wire record
and keep it unless a non-empty name or type filter disagrees with the
canonical field (the two `continue` statements). -/
def listRecordsFilterStep (params : ListDNSRecordsParams)
    (acc : List DNSRecord) (rr : ResourceRecord) : List DNSRecord :=
  let record := normalizeRR rr
  if params.Name ≠ "" ∧ record.Name ≠ params.Name then acc
  else if params.type ≠ "" ∧ record.type ≠ params.type then acc
  else acc ++ [record]

/-- The outer loop body of `Client.ListRecords`: process the records of one
answer domain when its name matches the requested zone. -/
def listRecordsDomainStep (zoneName : String) (params : ListDNSRecordsParams)
    (acc : List DNSRecord) (domain : DomainWithResourceRecords) : List DNSRecord :=
  if domain.dname = zoneName then
    domain.rrs.foldl (listRecordsFilterStep params) acc
  else acc

/-- The full record-collection loop of `Client.ListRecords`. -/
def collectRecords (domains : List DomainWithResourceRecords)
    (zoneName : String) (params : ListDNSRecordsParams) : List DNSRecord :=
  domains.foldl (listRecordsDomainStep zoneName params) []

/-- `Client.ListRecords`: resolve the zone name (falling back to `ZoneID`),
fetch `zone/get_resource_records` and collect the normalized, filtered
records. -/
def ListRecords (st : NetState) (params : ListDNSRecordsParams) :
    Except RegError (List DNSRecord) × NetState :=
  let zoneName := if params.ZoneName = "" then params.ZoneID else params.ZoneName
  match apiRequestM st "zone/get_resource_records"
      (.zoneGetResourceRecords { domains := [⟨zoneName⟩] }) with
  | (.error e, st1) => (.error e, st1)
  | (.ok (.zoneRRs resp), st1) =>
    (.ok (collectRecords resp.answer.domains zoneName params), st1)
  | (.ok _, st1) => (.error (.wrapped "failed to parse response"), st1)

/-- `Client.GetRRByName`: list the zone's records without filters and scan
for the first record with exactly the requested name. -/
def GetRRByName (st : NetState) (zone name : String) :
    Except RegError DNSRecord × NetState :=
  match ListRecords st { ZoneName := zone } with
  | (.error e, st1) => (.error e, st1)
  | (.ok records, st1) =>
    match records.find? (fun record => record.Name == name) with
    | some record => (.ok record, st1)
    | none => (.error (.recordNotFound name), st1)

/-! ## Specification-side definitions

These follow the specification's wording and are compared against the code
model by the theorems; they are not translations of the source. -/

/-- The first present, non-empty value among an ordered list of source
field values (specification, section on response normalization). -/
def firstNonEmpty (fields : List String) : String :=
  (fields.find? (fun f => f ≠ "")).getD ""

/-- Specification-side normalization of a full listing: keep the answer
domains for the requested zone, then normalize every wire record to its
canonical form, in listing order. -/
def normalizeListing (domains : List DomainWithResourceRecords)
    (zoneName : String) : List DNSRecord :=
  (domains.filter (fun d => d.dname = zoneName)).flatMap
    (fun d => d.rrs.map normalizeRR)

/-- Specification-side record filter: each of the two filters constrains
the corresponding canonical field only when non-empty. -/
def matchesFilters (params : ListDNSRecordsParams) (r : DNSRecord) : Bool :=
  decide ((params.Name = "" ∨ r.Name = params.Name) ∧
    (params.type = "" ∨ r.type = params.type))

/-- Transport state whose script answers one `service/get_list` call with a
single-service listing (convenience for stating normalization claims). -/
def svcListScript (s : Service) : NetState :=
  { script := [.ok (.serviceList { answer := { services := [s] } })], calls := [] }

/-- Claim C1's exactness property as stated: the canonical id accessor maps
every numeric `service_id` value to a decimal string denoting exactly that
value (no rounding). -/
def serviceIDNumericExact : Prop :=
  ∀ q : ℚ,
    parseDecimal (Service.GetServiceID { serviceID := .vFloat q }) = some q

/-! ## Helper lemmas: decimal printing and parsing round-trip -/

/-- The printed digits denote the printed number (fuel version). -/
theorem decValLE_natDigitsAux (fuel : Nat) :
    ∀ n : Nat, n ≤ fuel → decValLE (natDigitsAux fuel n) = n := by
  induction fuel with
  | zero =>
    intro n h
    interval_cases n
    rfl
  | succ fuel ih =>
    intro n h
    cases n with
    | zero => rfl
    | succ m =>
      have hdiv : (m + 1) / 10 ≤ fuel := by
        have := Nat.div_lt_self (Nat.succ_pos m) (by norm_num : 1 < 10)
        omega
      simp only [natDigitsAux, decValLE, ih _ hdiv]
      omega

/-- Every printed digit is a decimal digit. -/
theorem natDigitsAux_lt_ten (fuel : Nat) :
    ∀ n d : Nat, d ∈ natDigitsAux fuel n → d < 10 := by
  induction fuel with
  | zero =>
    intro n d h
    cases n <;> simp [natDigitsAux] at h
  | succ fuel ih =>
    intro n d h
    cases n with
    | zero => simp [natDigitsAux] at h
    | succ m =>
      simp only [natDigitsAux, List.mem_cons] at h
      rcases h with h | h
      · omega
      · exact ih _ _ h

/-- `decDigitVal` inverts `decDigitChar` on digits. -/
theorem decDigitVal_decDigitChar (d : Nat) (h : d < 10) :
    decDigitVal (decDigitChar d) = d := by
  interval_cases d <;> rfl

/-- `decDigitChar` produces decimal digit characters. -/
theorem isDecDigit_decDigitChar (d : Nat) (h : d < 10) :
    isDecDigit (decDigitChar d) = true := by
  interval_cases d <;> rfl

/-- A decimal digit character is not a dot. -/
theorem isDecDigit_ne_dot {c : Char} (h : isDecDigit c = true) : c ≠ '.' := by
  intro he
  subst he
  exact absurd h (by decide)

/-- A decimal digit character is not a minus sign. -/
theorem isDecDigit_ne_dash {c : Char} (h : isDecDigit c = true) : c ≠ '-' := by
  intro he
  subst he
  exact absurd h (by decide)

/-- `splitDot` is the identity on dot-free input. -/
theorem splitDot_no_dot (cs : List Char) (h : ∀ c ∈ cs, c ≠ '.') :
    splitDot cs = (cs, none) := by
  induction cs with
  | nil => rfl
  | cons c cs ih =>
    have hc : c ≠ '.' := h c (List.mem_cons_self c cs)
    simp only [splitDot, if_neg hc, ih (fun x hx => h x (List.mem_cons_of_mem c hx))]

/-- Parsing the printed digit list of a nonzero number recovers it. -/
theorem parseNatDigits_print (n : Nat) (hn : n ≠ 0) :
    parseNatDigits (((natDigits n).map decDigitChar).reverse) = some n := by
  have hne : natDigits n ≠ [] := by
    cases n with
    | zero => exact absurd rfl hn
    | succ m => simp [natDigits, natDigitsAux]
  have hall : (((natDigits n).map decDigitChar).reverse).all isDecDigit = true := by
    simp only [List.all_eq_true, List.mem_reverse, List.mem_map]
    rintro c ⟨d, hd, rfl⟩
    exact isDecDigit_decDigitChar d (natDigitsAux_lt_ten n n d hd)
  have hemp : (((natDigits n).map decDigitChar).reverse).isEmpty = false := by
    simp [List.isEmpty_iff, hne]
  have hmap : ((((natDigits n).map decDigitChar).reverse).map decDigitVal).reverse
      = natDigits n := by
    rw [← List.map_reverse, List.reverse_reverse, List.map_map]
    have : ∀ d ∈ natDigits n, (decDigitVal ∘ decDigitChar) d = d := fun d hd =>
      decDigitVal_decDigitChar d (natDigitsAux_lt_ten n n d hd)
    rw [List.map_congr_left this]
    simp
  rw [parseNatDigits, hemp, hall]
  simp only [Bool.not_false, Bool.true_and, hmap, if_pos]
  exact congrArg some (decValLE_natDigitsAux n n le_rfl)

/-- The character list of `natDecStr`. -/
theorem natDecStr_data (n : Nat) :
    (natDecStr n).data =
      if n = 0 then ['0'] else ((natDigits n).map decDigitChar).reverse := by
  by_cases h : n = 0 <;> simp [natDecStr, h]

/-- `natDecStr` prints only digits. -/
theorem natDecStr_all_digits (n : Nat) :
    (natDecStr n).data.all isDecDigit = true := by
  rw [natDecStr_data]
  by_cases h : n = 0
  · rw [if_pos h]
    decide
  · simp only [if_neg h, List.all_eq_true, List.mem_reverse, List.mem_map]
    rintro c ⟨d, hd, rfl⟩
    exact isDecDigit_decDigitChar d (natDigitsAux_lt_ten n n d hd)

/-- `natDecStr` is never empty. -/
theorem natDecStr_ne_nil (n : Nat) : (natDecStr n).data ≠ [] := by
  rw [natDecStr_data]
  by_cases h : n = 0
  · simp [h]
  · have hne : natDigits n ≠ [] := by
      cases n with
      | zero => exact absurd rfl h
      | succ m => simp [natDigits, natDigitsAux]
    simp [if_neg h, hne]

/-- On all-digit input, `parseDecimalCore` is integer parsing. -/
theorem parseDecimalCore_digits (cs : List Char)
    (h1 : cs.all isDecDigit = true) :
    parseDecimalCore cs = (parseNatDigits cs).map (fun n => (n : ℚ)) := by
  have hnd : ∀ c ∈ cs, c ≠ '.' := by
    intro c hc
    exact isDecDigit_ne_dot (by simpa using List.all_eq_true.mp h1 c hc)
  simp [parseDecimalCore, splitDot_no_dot cs hnd]

/-- On non-empty all-digit input, `parseDecimal` is `parseDecimalCore`. -/
theorem parseDecimal_eq_core (s : String)
    (h1 : s.data.all isDecDigit = true) (h2 : s.data ≠ []) :
    parseDecimal s = parseDecimalCore s.data := by
  rcases hd : s.data with _ | ⟨c, cs⟩
  · exact absurd hd h2
  · have hc : isDecDigit c = true := by
      have := List.all_eq_true.mp h1 c
      rw [hd] at this
      simpa using this (List.mem_cons_self c cs)
    simp [parseDecimal, hd, isDecDigit_ne_dash hc]

/-- Parsing `natDecStr n` recovers `n`. -/
theorem parseDecimal_natDecStr (n : Nat) :
    parseDecimal (natDecStr n) = some (n : ℚ) := by
  rw [parseDecimal_eq_core _ (natDecStr_all_digits n) (natDecStr_ne_nil n),
    parseDecimalCore_digits _ (natDecStr_all_digits n)]
  by_cases h : n = 0
  · subst h
    decide
  · rw [natDecStr_data, if_neg h, parseNatDigits_print n h]
    rfl

/-- Parsing `"-" ++ natDecStr n` yields `-n`. -/
theorem parseDecimal_neg_natDecStr (n : Nat) :
    parseDecimal ("-" ++ natDecStr n) = some (-(n : ℚ)) := by
  have hdata : ("-" ++ natDecStr n).data = '-' :: (natDecStr n).data := by
    simp
  have hcore : parseDecimalCore (natDecStr n).data = some ((n : ℕ) : ℚ) := by
    have := parseDecimal_natDecStr n
    rwa [parseDecimal_eq_core _ (natDecStr_all_digits n) (natDecStr_ne_nil n)] at this
  simp [parseDecimal, hdata, hcore]

/-- Parsing `intDecStr n` recovers `n`. -/
theorem parseDecimal_intDecStr (n : Int) :
    parseDecimal (intDecStr n) = some (n : ℚ) := by
  by_cases h : n < 0
  · rw [intDecStr, if_pos h, parseDecimal_neg_natDecStr]
    congr 1
    have habs : ((n.natAbs : ℚ)) = -(n : ℚ) := by
      rw [← Int.cast_natCast n.natAbs, Int.ofNat_natAbs_of_nonpos (le_of_lt h),
        Int.cast_neg]
    rw [habs, neg_neg]
  · rw [intDecStr, if_neg h, parseDecimal_natDecStr]
    congr 1
    rw [← Int.cast_natCast n.natAbs, Int.natAbs_of_nonneg (not_lt.mp h)]

/-- Rounding an integer is the identity. -/
theorem roundHalfEven_intCast (n : ℤ) : roundHalfEven (n : ℚ) = n := by
  have hnum : ((n : ℚ)).num = n := Rat.num_intCast n
  have hden : ((n : ℚ)).den = 1 := Rat.den_intCast n
  simp [roundHalfEven, ratFloor, hnum, hden]

/-- The empty string is a left identity for append. -/
theorem empty_append_str (s : String) : "" ++ s = s := by
  cases s
  rfl

/-- `%.0f` of an integer-valued rational parses back to that integer. -/
theorem parseDecimal_fmtFloat0_intCast (n : ℤ) :
    parseDecimal (fmtFloat0 (n : ℚ)) = some ((n : ℚ)) := by
  by_cases h : n < 0
  · have hq : ((n : ℚ)) < 0 := by exact_mod_cast h
    have hneg : -((n : ℚ)) = ((-n : ℤ) : ℚ) := by push_cast; ring
    rw [fmtFloat0, if_pos hq, if_pos hq, hneg, roundHalfEven_intCast,
      parseDecimal_neg_natDecStr]
    congr 1
    have h1 : (((-n).toNat : ℚ)) = -(n : ℚ) := by
      exact_mod_cast Int.toNat_of_nonneg (by omega : (0 : ℤ) ≤ -n)
    rw [h1, neg_neg]
  · have hq : ¬ ((n : ℚ)) < 0 := by
      simp only [not_lt] at h ⊢
      exact_mod_cast h
    rw [fmtFloat0, if_neg hq, if_neg hq, roundHalfEven_intCast,
      empty_append_str, parseDecimal_natDecStr]
    congr 1
    exact_mod_cast Int.toNat_of_nonneg (not_lt.mp h)

/-! ## Helper lemmas: the listing loop versus normalize-then-filter -/

/-- The two `continue` conditions of the listing loop amount to filtering by
the canonical-field predicate. -/
theorem listRecordsFilterStep_eq (params : ListDNSRecordsParams)
    (acc : List DNSRecord) (rr : ResourceRecord) :
    listRecordsFilterStep params acc rr =
      if matchesFilters params (normalizeRR rr) then acc ++ [normalizeRR rr]
      else acc := by
  simp only [listRecordsFilterStep, matchesFilters, decide_eq_true_eq]
  split_ifs with h1 h2 h3 h4 h5 <;> first | rfl | tauto

/-- The inner fold appends exactly the normalized records passing the
filter. -/
theorem foldl_filterStep (params : ListDNSRecordsParams)
    (rrs : List ResourceRecord) :
    ∀ acc : List DNSRecord,
      rrs.foldl (listRecordsFilterStep params) acc =
        acc ++ (rrs.map normalizeRR).filter (matchesFilters params) := by
  induction rrs with
  | nil => simp
  | cons rr rrs ih =>
    intro acc
    rw [List.foldl_cons, listRecordsFilterStep_eq, ih]
    by_cases h : matchesFilters params (normalizeRR rr)
    · simp [h, List.filter_cons]
    · simp [h, List.filter_cons]

/-- The outer fold appends exactly the filtered normalized listing. -/
theorem foldl_domainStep (zoneName : String) (params : ListDNSRecordsParams)
    (domains : List DomainWithResourceRecords) :
    ∀ acc : List DNSRecord,
      domains.foldl (listRecordsDomainStep zoneName params) acc =
        acc ++ (normalizeListing domains zoneName).filter (matchesFilters params) := by
  induction domains with
  | nil => simp [normalizeListing]
  | cons d ds ih =>
    intro acc
    rw [List.foldl_cons, ih]
    by_cases hd : d.dname = zoneName
    · rw [show listRecordsDomainStep zoneName params acc d
          = d.rrs.foldl (listRecordsFilterStep params) acc from by
            simp [listRecordsDomainStep, hd]]
      rw [foldl_filterStep]
      simp [normalizeListing, hd, List.filter_cons, List.filter_append,
        List.append_assoc]
    · rw [show listRecordsDomainStep zoneName params acc d = acc from by
          simp [listRecordsDomainStep, hd]]
      simp [normalizeListing, hd, List.filter_cons]

/-- The record-collection loop of `ListRecords` is normalize-then-filter:
it returns exactly the normalized records whose canonical fields pass the
filters, in listing order. -/
theorem collectRecords_eq (domains : List DomainWithResourceRecords)
    (zoneName : String) (params : ListDNSRecordsParams) :
    collectRecords domains zoneName params =
      (normalizeListing domains zoneName).filter (matchesFilters params) := by
  rw [collectRecords, foldl_domainStep]
  simp

/-- The zone-name fallback of `ListRecords` is the identity when only
`ZoneName` is set. -/
theorem zoneName_resolve (zone : String) :
    (if zone = "" then ("" : String) else zone) = zone := by
  by_cases h : zone = "" <;> simp [h]

/-- The default listing parameters filter nothing. -/
theorem matchesFilters_default (zone : String) (r : DNSRecord) :
    matchesFilters { ZoneName := zone } r = true := by
  simp [matchesFilters]

/-- A successful `find?` returns the first element satisfying the
predicate: everything before it fails the predicate. -/
theorem find?_eq_some_split {α : Type} (p : α → Bool) :
    ∀ (l : List α) (a : α), l.find? p = some a →
      p a = true ∧ ∃ l1 l2, l = l1 ++ a :: l2 ∧ ∀ x ∈ l1, p x = false := by
  intro l
  induction l with
  | nil => intro a h; simp at h
  | cons b l ih =>
    intro a h
    by_cases hb : p b
    · rw [List.find?_cons_of_pos l hb] at h
      obtain rfl : b = a := by simpa using h
      exact ⟨hb, [], l, rfl, by simp⟩
    · rw [List.find?_cons_of_neg l hb] at h
      obtain ⟨hp, l1, l2, heq, hl1⟩ := ih a h
      refine ⟨hp, b :: l1, l2, by rw [heq, List.cons_append], ?_⟩
      intro x hx
      rcases List.mem_cons.mp hx with rfl | hx
      · exact Bool.eq_false_iff.mpr hb
      · exact hl1 x hx

/-! ## Claim theorems -/

/-- C1 (counterexample): the claim that `GetServiceID` converts every
numeric `service_id` exactly (never rounded) is false: the numeric value
`1/2` is rendered `"0"`, which denotes `0`, not `1/2` — `%.0f` rounds. -/
theorem getServiceID_not_exact_on_nonintegral : ¬ serviceIDNumericExact := by
  intro h
  exact absurd (h (mkRat 1 2)) (by decide)

/-- C1 (amended): `GetServiceID` maps every integral numeric `service_id`
(an integer, or an integer-valued float such as `12345.0`) to its exact
decimal digits with no trailing fractional part; every non-integral numeric
value is rendered as some whole number (i.e. rounded, not exact); a
string-valued `service_id` is returned unchanged; and the string `"12345"`
and the number `12345.0` both yield the canonical string `"12345"`. -/
theorem getServiceID_canonical_decimal :
    (∀ q : ℚ, q.den = 1 →
      parseDecimal (Service.GetServiceID { serviceID := .vFloat q }) = some q)
    ∧ (∀ q : ℚ, ∃ k : ℤ,
      parseDecimal (Service.GetServiceID { serviceID := .vFloat q }) = some ((k : ℚ)))
    ∧ (∀ n : ℤ,
      parseDecimal (Service.GetServiceID { serviceID := .vInt n }) = some ((n : ℚ)))
    ∧ (∀ s : String, Service.GetServiceID { serviceID := .vStr s } = s)
    ∧ Service.GetServiceID { serviceID := .vStr "12345" } = "12345"
    ∧ Service.GetServiceID { serviceID := .vFloat (12345 : ℚ) } = "12345" := by
  refine ⟨?_, ?_, ?_, ?_, rfl, by decide⟩
  · intro q hq
    have hq2 : ((q.num : ℚ)) = q := (Rat.den_eq_one_iff q).mp hq
    rw [← hq2]
    simpa only [Service.GetServiceID] using parseDecimal_fmtFloat0_intCast q.num
  · intro q
    by_cases h : q < 0
    · refine ⟨-(((roundHalfEven (-q)).toNat : ℤ)), ?_⟩
      simp only [Service.GetServiceID, fmtFloat0, if_pos h]
      rw [parseDecimal_neg_natDecStr]
      push_cast
      ring_nf
    · refine ⟨(((roundHalfEven q).toNat : ℤ)), ?_⟩
      simp only [Service.GetServiceID, fmtFloat0, if_neg h]
      rw [empty_append_str, parseDecimal_natDecStr]
      push_cast
      ring_nf
  · intro n
    simpa only [Service.GetServiceID] using parseDecimal_intDecStr n
  · intro s
    rfl

/-- C1 (witness): the integral value `7` round-trips exactly. -/
theorem getServiceID_canonical_decimal_witness :
    parseDecimal (Service.GetServiceID { serviceID := .vFloat (7 : ℚ) })
      = some (7 : ℚ) :=
  getServiceID_canonical_decimal.1 7 (by decide)

/-- C2: a service entry carrying only the legacy `servtype`/`dname` fields
and one carrying only `service_type`/`domain` with the same values
normalize to the same canonical zone in `ListZones`; each canonical
accessor returns the first present, non-empty variant among its two source
field names. -/
theorem legacy_fields_normalize_identically :
    (∀ (v d : String) (id : GoValue),
      (ListZones (svcListScript
        { serviceType := "", servType := v, domain := "", dname := d,
          serviceID := id })).1
        = (ListZones (svcListScript
        { serviceType := v, servType := "", domain := d, dname := "",
          serviceID := id })).1)
    ∧ (∀ s : Service, s.GetServiceType = firstNonEmpty [s.serviceType, s.servType])
    ∧ (∀ s : Service, s.GetDomain = firstNonEmpty [s.domain, s.dname]) := by
  refine ⟨?_, ?_, ?_⟩
  · intro v d id
    have hid : Service.GetServiceID
        { serviceType := "", servType := v, domain := "", dname := d, serviceID := id }
          = Service.GetServiceID
        { serviceType := v, servType := "", domain := d, dname := "", serviceID := id } :=
      rfl
    have ht : Service.GetServiceType
        { serviceType := "", servType := v, domain := "", dname := d, serviceID := id }
          = Service.GetServiceType
        { serviceType := v, servType := "", domain := d, dname := "", serviceID := id } := by
      by_cases hv : v = "" <;> simp [Service.GetServiceType, hv]
    have hdm : Service.GetDomain
        { serviceType := "", servType := v, domain := "", dname := d, serviceID := id }
          = Service.GetDomain
        { serviceType := v, servType := "", domain := d, dname := "", serviceID := id } := by
      by_cases hd : d = "" <;> simp [Service.GetDomain, hd]
    have hz : zoneOfService
        { serviceType := "", servType := v, domain := "", dname := d, serviceID := id }
          = zoneOfService
        { serviceType := v, servType := "", domain := d, dname := "", serviceID := id } := by
      rw [zoneOfService, zoneOfService, ht, hdm, hid]
    simp [ListZones, apiRequestM, svcListScript, List.filterMap_cons, hz]
  · intro s
    by_cases h1 : s.serviceType = "" <;> by_cases h2 : s.servType = "" <;>
      simp [Service.GetServiceType, firstNonEmpty, h1, h2]
  · intro s
    by_cases h1 : s.domain = "" <;> by_cases h2 : s.dname = "" <;>
      simp [Service.GetDomain, firstNonEmpty, h1, h2]

/-- C10: an absent (`nil`) `service_id` is rendered as the literal string
`"<nil>"` by `GetServiceID` (not the empty string), and `ListZones` stores
that string as the id of a domain-classified entry. -/
theorem nil_serviceID_prints_nil :
    (∀ s : Service, s.serviceID = .vNil → s.GetServiceID = "<nil>")
    ∧ (∀ s : Service, s.serviceID = .vNil → s.GetServiceType = "domain" →
      (ListZones (svcListScript s)).1 = .ok [{ Name := s.GetDomain, ID := "<nil>" }]) := by
  constructor
  · intro s h
    simp [Service.GetServiceID, h]
  · intro s h hdom
    simp [ListZones, apiRequestM, svcListScript, zoneOfService, hdom,
      Service.GetServiceID, h]

/-- C10 (witness): a concrete domain service with an absent id yields a
zone with id `"<nil>"`. -/
theorem nil_serviceID_prints_nil_witness :
    Service.GetServiceID
      { serviceType := "domain", servType := "", domain := "example.com",
        dname := "", serviceID := .vNil } = "<nil>"
    ∧ (ListZones (svcListScript
      { serviceType := "domain", servType := "", domain := "example.com",
        dname := "", serviceID := .vNil })).1
      = .ok [{ Name := "example.com", ID := "<nil>" }] :=
  ⟨nil_serviceID_prints_nil.1 _ rfl, nil_serviceID_prints_nil.2 _ rfl (by decide)⟩

/-- Shared helper: `getAddRecordPath` rejects a type outside the fixed
enumeration with `UnsupportedRecordTypeError`. -/
theorem getAddRecordPath_unsupported (rt : String)
    (h : rt ∉ supportedRecordTypes) :
    getAddRecordPath rt = .error (.unsupportedRecordType rt) := by
  simp only [supportedRecordTypes, List.mem_cons, List.not_mem_nil, or_false] at h
  push_neg at h
  obtain ⟨h1, h2, h3, h4, h5, h6⟩ := h
  simp [getAddRecordPath, h1, h2, h3, h4, h5, h6]

/-- C3: for every supported record type, the shaped create payload carries
an explicit `ttl` field exactly when `params.TTL` is positive, and then
with exactly that value; a zero (or negative) TTL leaves the field at its
zero value, which `omitempty` removes from the serialized payload. -/
theorem ttl_field_iff_positive :
    ∀ (zone : String) (params : CreateDNSRecordParams) (req : APIRequestU),
      createAddRecordRequest zone params = .ok req →
        ((0 < params.TTL → req.ttlField = some params.TTL)
          ∧ (params.TTL ≤ 0 → req.ttlField = none)) := by
  intro zone params req h
  rw [createAddRecordRequest] at h
  split_ifs at h
  all_goals
    first
      | exact Except.noConfusion h
      | (obtain rfl : _ = req := Except.ok.inj h
         refine ⟨fun hT => ?_, fun hT => ?_⟩ <;>
           (simp only [APIRequestU.ttlField]
            split_ifs with hc <;>
              first
                | rfl
                | exact absurd hc (by omega)
                | exact absurd hT (by omega)
                | exact absurd rfl hc))

/-- C3 (witness): a positive TTL of 300 appears verbatim in the shaped
payload; the same request with TTL 0 omits the field. -/
theorem ttl_field_iff_positive_witness :
    (APIRequestU.addAlias
      { domains := [⟨"example.com"⟩], subdomain := "www",
        ipaddr := "192.0.2.1", ttl := 300 }).ttlField = some 300
    ∧ (APIRequestU.addAlias
      { domains := [⟨"example.com"⟩], subdomain := "www",
        ipaddr := "192.0.2.1", ttl := 0 }).ttlField = none :=
  ⟨(ttl_field_iff_positive "example.com"
      { Name := "www", type := "A", Content := "192.0.2.1", TTL := 300 }
      _ (by decide)).1 (by decide),
   (ttl_field_iff_positive "example.com"
      { Name := "www", type := "A", Content := "192.0.2.1", TTL := 0 }
      _ (by decide)).2 (by decide)⟩

/-- C4: `getAddRecordPath` is total on the fixed enumeration, assigning
each record type its documented endpoint and never another type's endpoint
(the mapping is injective on the enumeration); for every type outside the
enumeration, `AddRR` returns `UnsupportedRecordTypeError` (classifiable as
`ErrUnsupportedRecordType`) with the transport state untouched — no payload
is shaped and no network call is made. -/
theorem addRecordPath_total_injective_validates :
    (getAddRecordPath "A" = .ok "zone/add_alias"
      ∧ getAddRecordPath "AAAA" = .ok "zone/add_aaaa"
      ∧ getAddRecordPath "CNAME" = .ok "zone/add_cname"
      ∧ getAddRecordPath "MX" = .ok "zone/add_mx"
      ∧ getAddRecordPath "NS" = .ok "zone/add_ns"
      ∧ getAddRecordPath "TXT" = .ok "zone/add_txt")
    ∧ (∀ t1 ∈ supportedRecordTypes, ∀ t2 ∈ supportedRecordTypes,
        t1 ≠ t2 → getAddRecordPath t1 ≠ getAddRecordPath t2)
    ∧ (∀ rt : String, rt ∉ supportedRecordTypes →
        getAddRecordPath rt = .error (.unsupportedRecordType rt)
          ∧ (RegError.unsupportedRecordType rt).isUnsupportedRecordType = true)
    ∧ (∀ (st : NetState) (zone : String) (params : CreateDNSRecordParams),
        params.type ∉ supportedRecordTypes →
          AddRR st zone params = (.error (.unsupportedRecordType params.type), st)) := by
  refine ⟨by decide, by decide, ?_, ?_⟩
  · intro rt h
    exact ⟨getAddRecordPath_unsupported rt h, rfl⟩
  · intro st zone params h
    rw [AddRR, getAddRecordPath_unsupported params.type h]

/-- C4 (witness): the unsupported type `"SRV"` is rejected by `AddRR`
before any call, and A and TXT map to distinct endpoints. -/
theorem addRecordPath_total_injective_validates_witness :
    AddRR { script := [], calls := [] } "example.com" { type := "SRV" }
      = (.error (.unsupportedRecordType "SRV"), { script := [], calls := [] })
    ∧ getAddRecordPath "A" ≠ getAddRecordPath "TXT" :=
  ⟨addRecordPath_total_injective_validates.2.2.2
      { script := [], calls := [] } "example.com" { type := "SRV" } (by decide),
   addRecordPath_total_injective_validates.2.1 "A" (by decide) "TXT" (by decide)
      (by decide)⟩

/-- C5 (counterexample): the claim that `apiRequest` classifies by the 2xx
class is false: the code compares the status against exactly 200, so a 204
response with no error text yields `HTTPError` where the claim requires a
success carrying the raw body. -/
theorem apiRequest_not_classified_by_2xx : ¬ apiRequestClassifiesBy2xx := by
  intro h
  have h3 := (h (fun _ => none) ⟨204, "No Content"⟩).2.2 (by decide) (Or.inl rfl)
  exact absurd h3 (by decide)

/-- C5 (amended): `apiRequest` classifies by status exactly 200: every
response with a status other than 200 (in particular every non-2xx status
such as 500) yields `HTTPError` carrying that exact status and the literal
body; a 200 response whose decoded envelope carries a non-empty
`error_text` yields `APIError` with that text verbatim; a 200 response
without error text returns the raw body with no error; and each
`apiRequest` issues exactly one network call — no retry. -/
theorem apiRequest_classification :
    (∀ (dec : String → Option String) (resp : HTTPResponse),
      (resp.statusCode ≠ 200 →
        apiRequestClassify dec resp = .error (.httpError resp.statusCode resp.body))
      ∧ (∀ t : String, resp.statusCode = 200 → dec resp.body = some t → t ≠ "" →
        apiRequestClassify dec resp = .error (.apiError t))
      ∧ (resp.statusCode = 200 → (dec resp.body = none ∨ dec resp.body = some "") →
        apiRequestClassify dec resp = .ok resp.body))
    ∧ (∀ (st : NetState) (path : String) (req : APIRequestU),
      ((apiRequestM st path req).2).calls
        = st.calls ++ [{ path := path, payload := req }]) := by
  constructor
  · intro dec resp
    refine ⟨?_, ?_, ?_⟩
    · intro hs
      rw [apiRequestClassify, if_pos hs]
    · intro t hs hdec ht
      rw [apiRequestClassify, if_neg (by simp [hs]), hdec]
      simp [ht]
    · intro hs hdec
      rcases hdec with hdec | hdec <;>
        rw [apiRequestClassify, if_neg (by simp [hs]), hdec] <;> simp
  · intro st path req
    rfl

/-- C5 (witness): a 500 response with body `"Internal Server Error"` yields
`HTTPError 500` with that body; a 200 response decoding to error text
`"Invalid credentials"` yields `APIError` with exactly that text. -/
theorem apiRequest_classification_witness :
    apiRequestClassify (fun _ => none) ⟨500, "Internal Server Error"⟩
      = .error (.httpError 500 "Internal Server Error")
    ∧ apiRequestClassify (fun _ => some "Invalid credentials") ⟨200, "body"⟩
      = .error (.apiError "Invalid credentials") :=
  ⟨(apiRequest_classification.1 (fun _ => none)
      ⟨500, "Internal Server Error"⟩).1 (by decide),
   (apiRequest_classification.1 (fun _ => some "Invalid credentials")
      ⟨200, "body"⟩).2.1 "Invalid credentials" rfl rfl (by decide)⟩

/-- Shared helper: for a supported record type, `DeleteRR` issues exactly
one call to `zone/remove_record` with the shaped removal payload and
propagates the scripted result. -/
theorem DeleteRR_one_call (zone : String) (rr : DNSRecord)
    (hsup : rr.type ∈ supportedRecordTypes)
    (res : Except RegError ApiAnswer) (rest : List (Except RegError ApiAnswer))
    (c0 : List NetCall) :
    ∃ delReq : APIRequestU,
      createRemoveRecordRequest zone rr = .ok delReq ∧
      DeleteRR { script := res :: rest, calls := c0 } zone rr
        = ((match res with | .error e => .error e | .ok _ => .ok ()),
           { script := rest, calls := c0 ++ [⟨"zone/remove_record", delReq⟩] }) := by
  simp only [supportedRecordTypes, List.mem_cons, List.not_mem_nil, or_false] at hsup
  have hpath : getRemoveRecordPath rr.type = .ok "zone/remove_record" := by
    rcases hsup with ht | ht | ht | ht | ht | ht <;> simp [getRemoveRecordPath, ht]
  have hex : ∃ delReq : APIRequestU, createRemoveRecordRequest zone rr = .ok delReq := by
    rcases hr : createRemoveRecordRequest zone rr with e | r
    · rcases hsup with ht | ht | ht | ht | ht | ht <;>
        simp [createRemoveRecordRequest, ht] at hr
    · exact ⟨r, rfl⟩
  obtain ⟨delReq, hmk⟩ := hex
  refine ⟨delReq, hmk, ?_⟩
  simp only [DeleteRR, hpath, hmk, apiRequestM, List.drop_succ_cons, List.drop_zero]
  rcases res with e | a <;> rfl

/-- Shared helper: for a supported record type with a scripted decoded
`AddNSResponse`, `AddRR` issues exactly one call to its per-type endpoint
with the shaped payload, and the returned record carries the caller's
name, type, content and TTL. -/
theorem AddRR_one_call (zone : String) (params : CreateDNSRecordParams)
    (hsup : params.type ∈ supportedRecordTypes)
    (resp : AddNSResponse) (rest : List (Except RegError ApiAnswer))
    (c0 : List NetCall) :
    ∃ (addPath : String) (addReq : APIRequestU) (record : DNSRecord),
      getAddRecordPath params.type = .ok addPath ∧
      createAddRecordRequest zone params = .ok addReq ∧
      AddRR { script := .ok (.addNS resp) :: rest, calls := c0 } zone params
        = (.ok record, { script := rest, calls := c0 ++ [⟨addPath, addReq⟩] })
      ∧ record.Name = params.Name ∧ record.type = params.type
      ∧ record.Content = params.Content ∧ record.TTL = params.TTL := by
  simp only [supportedRecordTypes, List.mem_cons, List.not_mem_nil, or_false] at hsup
  have hexp : ∃ addPath : String, getAddRecordPath params.type = .ok addPath := by
    rcases hr : getAddRecordPath params.type with e | p
    · rcases hsup with ht | ht | ht | ht | ht | ht <;>
        simp [getAddRecordPath, ht] at hr
    · exact ⟨p, rfl⟩
  have hexr : ∃ addReq : APIRequestU, createAddRecordRequest zone params = .ok addReq := by
    rcases hr : createAddRecordRequest zone params with e | r
    · rcases hsup with ht | ht | ht | ht | ht | ht <;>
        simp [createAddRecordRequest, ht] at hr
    · exact ⟨r, rfl⟩
  obtain ⟨addPath, hpath⟩ := hexp
  obtain ⟨addReq, hmk⟩ := hexr
  rcases hdom : resp.answer.domains with _ | ⟨domain, ds⟩
  · refine ⟨addPath, addReq,
      { Name := params.Name, type := params.type, Content := params.Content,
        TTL := params.TTL }, hpath, hmk, ?_, rfl, rfl, rfl, rfl⟩
    simp only [AddRR, hpath, hmk, apiRequestM, hdom, List.drop_succ_cons,
      List.drop_zero]
  · by_cases hs : domain.result = "success"
    · refine ⟨addPath, addReq,
        { Name := params.Name, type := params.type, Content := params.Content,
          TTL := params.TTL, ID := domain.dnsID }, hpath, hmk, ?_, rfl, rfl, rfl, rfl⟩
      simp only [AddRR, hpath, hmk, apiRequestM, hdom, List.drop_succ_cons,
        List.drop_zero, if_pos hs]
    · refine ⟨addPath, addReq,
        { Name := params.Name, type := params.type, Content := params.Content,
          TTL := params.TTL }, hpath, hmk, ?_, rfl, rfl, rfl, rfl⟩
      simp only [AddRR, hpath, hmk, apiRequestM, hdom, List.drop_succ_cons,
        List.drop_zero, if_neg hs]

/-- C6: `UpdateRR` performs exactly two network calls in order — first the
delete (`zone/remove_record`) of the given record, then the create on the
record type's add endpoint; if the delete fails, no create call is issued
and the delete's error is returned; on success the returned record carries
the new name, type, content and TTL. -/
theorem updateRR_delete_then_create :
    ∀ (zone : String) (rr : DNSRecord), rr.type ∈ supportedRecordTypes →
      (∀ (e : RegError) (rest : List (Except RegError ApiAnswer)),
        ∃ delReq : APIRequestU,
          createRemoveRecordRequest zone rr = .ok delReq ∧
          UpdateRR { script := .error e :: rest, calls := [] } zone rr
            = (.error e,
               { script := rest, calls := [⟨"zone/remove_record", delReq⟩] }))
      ∧ (∀ (a : ApiAnswer) (resp : AddNSResponse),
        ∃ (delReq : APIRequestU) (addPath : String) (addReq : APIRequestU)
          (record : DNSRecord),
          createRemoveRecordRequest zone rr = .ok delReq ∧
          getAddRecordPath rr.type = .ok addPath ∧
          UpdateRR { script := [.ok a, .ok (.addNS resp)], calls := [] } zone rr
            = (.ok record,
               { script := [],
                 calls := [⟨"zone/remove_record", delReq⟩, ⟨addPath, addReq⟩] })
          ∧ record.Name = rr.Name ∧ record.type = rr.type
          ∧ record.Content = rr.Content ∧ record.TTL = rr.TTL) := by
  intro zone rr hsup
  constructor
  · intro e rest
    obtain ⟨delReq, hmk, hdel⟩ :=
      DeleteRR_one_call zone rr hsup (.error e) rest []
    refine ⟨delReq, hmk, ?_⟩
    rw [UpdateRR, hdel]
    rfl
  · intro a resp
    obtain ⟨delReq, hmk, hdel⟩ := DeleteRR_one_call zone rr hsup (.ok a) [.ok (.addNS resp)] []
    obtain ⟨addPath, addReq, record, hpath, hmk2, hadd, hn, hty, hc, httl⟩ :=
      AddRR_one_call zone
        { Name := rr.Name, type := rr.type, Content := rr.Content,
          TTL := rr.TTL }
        hsup resp [] [⟨"zone/remove_record", delReq⟩]
    refine ⟨delReq, addPath, addReq, record, hmk, hpath, ?_, hn, hty, hc, httl⟩
    rw [UpdateRR, hdel]
    exact hadd

/-- C6 (witness): a concrete A-record update with a scripted delete answer
and a successful create answer makes exactly the two calls in order and
returns the new content. -/
theorem updateRR_delete_then_create_witness :
    ∃ (delReq : APIRequestU) (addPath : String) (addReq : APIRequestU)
      (record : DNSRecord),
      createRemoveRecordRequest "example.com"
        { Content := "192.0.2.3", Name := "www", TTL := 3600, type := "A" }
        = .ok delReq ∧
      getAddRecordPath "A" = .ok addPath ∧
      UpdateRR
          { script :=
              [.ok (.addNS {}),
               .ok (.addNS
                 { answer :=
                     { domains :=
                         [{ dname := "example.com", result := "success",
                            dnsID := "12345" }] } })],
            calls := [] }
          "example.com"
          { Content := "192.0.2.3", Name := "www", TTL := 3600, type := "A" }
        = (.ok record,
           { script := [],
             calls := [⟨"zone/remove_record", delReq⟩, ⟨addPath, addReq⟩] })
      ∧ record.Name = "www" ∧ record.type = "A"
      ∧ record.Content = "192.0.2.3" ∧ record.TTL = 3600 :=
  (updateRR_delete_then_create "example.com"
      { Content := "192.0.2.3", Name := "www", TTL := 3600, type := "A" }
      (by decide)).2 (.addNS {})
    { answer := { domains :=
        [{ dname := "example.com", result := "success", dnsID := "12345" }] } }

/-- C8: `ListRecords` returns exactly the normalized records of the
requested zone whose canonical `Name` and `type` agree with every
non-empty filter field — normalize first, then filter on canonical fields,
preserving listing order; a zone with no matching records yields `.ok []`,
never an error. -/
theorem listRecords_filters_canonical_after_normalize :
    ∀ (ans : ZoneGetResourceRecordsResponse) (params : ListDNSRecordsParams)
      (rest : List (Except RegError ApiAnswer)),
      (ListRecords { script := .ok (.zoneRRs ans) :: rest, calls := [] } params).1
        = .ok ((normalizeListing ans.answer.domains
            (if params.ZoneName = "" then params.ZoneID else params.ZoneName)).filter
              (matchesFilters params)) := by
  intro ans params rest
  simp [ListRecords, apiRequestM, collectRecords_eq]

/-- C9: every record produced by `ListRecords` from a
`zone/get_resource_records` listing has `TTL = 0` and `ID = ""`: the
decoder for that endpoint exposes neither field, and normalization leaves
them at their zero values rather than fabricating values. -/
theorem listRecords_ttl_id_unset :
    ∀ (st : NetState) (params : ListDNSRecordsParams) (recs : List DNSRecord),
      (ListRecords st params).1 = .ok recs →
      ∀ r ∈ recs, r.TTL = 0 ∧ r.ID = "" := by
  intro st params recs h r hr
  rcases hs : st.script with _ | ⟨res, rest⟩
  · simp [ListRecords, apiRequestM, hs] at h
  · rcases res with e | a
    · simp [ListRecords, apiRequestM, hs] at h
    · rcases a with r1 | r2 | resp
      · simp [ListRecords, apiRequestM, hs] at h
      · simp [ListRecords, apiRequestM, hs] at h
      · simp only [ListRecords, apiRequestM, hs, Except.ok.injEq] at h
        rw [← h, collectRecords_eq] at hr
        have hmem := (List.mem_filter.mp hr).1
        simp only [normalizeListing, List.mem_flatMap, List.mem_filter,
          List.mem_map] at hmem
        obtain ⟨d, _, rr, _, rfl⟩ := hmem
        exact ⟨rfl, rfl⟩

/-- C9 (witness): a concrete listed record carries `TTL = 0` and an empty
id. -/
theorem listRecords_ttl_id_unset_witness :
    ({ Content := "192.0.2.1", Name := "www", type := "A" } : DNSRecord).TTL = 0
    ∧ ({ Content := "192.0.2.1", Name := "www", type := "A" } : DNSRecord).ID = "" :=
  listRecords_ttl_id_unset
    { script :=
        [.ok (.zoneRRs
          { answer :=
              { domains :=
                  [{ dname := "example.com",
                     rrs := [{ content := "192.0.2.1", rectype := "A",
                               subname := "www" }] }] } })],
      calls := [] }
    { ZoneName := "example.com" }
    [{ Content := "192.0.2.1", Name := "www", type := "A" }]
    (by decide)
    { Content := "192.0.2.1", Name := "www", type := "A" }
    (by decide)

/-- C7: `GetRRByName` returns the first record of the zone listing whose
canonical name equals the queried name exactly; when no record matches it
returns `RecordNotFoundError` carrying the name — a distinct error, not an
empty record; when a match exists the result is a success; and a failing
listing is propagated unchanged. -/
theorem getRRByName_first_exact_match :
    ∀ (ans : ZoneGetResourceRecordsResponse) (zone name : String)
      (rest : List (Except RegError ApiAnswer)),
      (∀ r : DNSRecord,
        (GetRRByName { script := .ok (.zoneRRs ans) :: rest, calls := [] }
            zone name).1 = .ok r →
          r.Name = name ∧
          ∃ l1 l2, normalizeListing ans.answer.domains zone = l1 ++ r :: l2
            ∧ ∀ x ∈ l1, x.Name ≠ name)
      ∧ ((∃ r ∈ normalizeListing ans.answer.domains zone, r.Name = name) →
          ∃ r : DNSRecord,
            (GetRRByName { script := .ok (.zoneRRs ans) :: rest, calls := [] }
              zone name).1 = .ok r)
      ∧ ((∀ r ∈ normalizeListing ans.answer.domains zone, r.Name ≠ name) →
          (GetRRByName { script := .ok (.zoneRRs ans) :: rest, calls := [] }
            zone name).1 = .error (.recordNotFound name))
      ∧ (∀ e : RegError,
          (GetRRByName { script := [.error e], calls := [] } zone name).1
            = .error e) := by
  intro ans zone name rest
  have hzn : (if (({ ZoneName := zone } : ListDNSRecordsParams)).ZoneName = ""
      then (({ ZoneName := zone } : ListDNSRecordsParams)).ZoneID
      else (({ ZoneName := zone } : ListDNSRecordsParams)).ZoneName) = zone := by
    by_cases h : zone = "" <;> simp [h]
  have hfilt : (matchesFilters ({ ZoneName := zone } : ListDNSRecordsParams))
      = fun _ => true := by
    funext r
    exact matchesFilters_default zone r
  have hrecs : ListRecords { script := .ok (.zoneRRs ans) :: rest, calls := [] }
      { ZoneName := zone }
      = (.ok (normalizeListing ans.answer.domains zone),
         { script := rest,
           calls := [⟨"zone/get_resource_records",
             .zoneGetResourceRecords { domains := [⟨zone⟩] }⟩] }) := by
    simp [ListRecords, apiRequestM, collectRecords_eq, hzn, hfilt]
  have hmain : (GetRRByName { script := .ok (.zoneRRs ans) :: rest, calls := [] }
        zone name).1
      = (match (normalizeListing ans.answer.domains zone).find?
            (fun record => record.Name == name) with
         | some record => .ok record
         | none => .error (.recordNotFound name)) := by
    rw [GetRRByName, hrecs]
    rcases hf : (normalizeListing ans.answer.domains zone).find?
        (fun record => record.Name == name) with _ | r <;> simp [hf]
  refine ⟨?_, ?_, ?_, ?_⟩
  · intro r hr
    rw [hmain] at hr
    rcases hf : (normalizeListing ans.answer.domains zone).find?
        (fun record => record.Name == name) with _ | r2
    · rw [hf] at hr
      simp at hr
    · rw [hf] at hr
      obtain rfl : r2 = r := by simpa using hr
      obtain ⟨hp, l1, l2, heq, hl1⟩ :=
        find?_eq_some_split (fun record : DNSRecord => record.Name == name) _ _ hf
      refine ⟨by simpa using hp, l1, l2, heq, ?_⟩
      intro x hx
      simpa using hl1 x hx
  · rintro ⟨r, hr, hname⟩
    rw [hmain]
    rcases hf : (normalizeListing ans.answer.domains zone).find?
        (fun record => record.Name == name) with _ | r2
    · exact absurd (by simpa using hname)
        (List.find?_eq_none.mp hf r hr)
    · exact ⟨r2, by rw [hf]⟩
  · intro hall
    rw [hmain]
    have hf : (normalizeListing ans.answer.domains zone).find?
        (fun record => record.Name == name) = none :=
      List.find?_eq_none.mpr (fun x hx => by simpa using hall x hx)
    rw [hf]
  · intro e
    simp [GetRRByName, ListRecords, apiRequestM]

/-- C7 (witness): over the listing `[{www, A, 192.0.2.1},
{mail, MX, "10 mail.example.com"}]`, querying `"www"` returns the `www`
record and querying `"ftp"` yields `RecordNotFoundError`. -/
theorem getRRByName_first_exact_match_witness :
    (({ Content := "192.0.2.1", Name := "www", type := "A" } : DNSRecord).Name
        = "www"
      ∧ ∃ l1 l2,
        normalizeListing
            [{ dname := "example.com",
               rrs := [{ content := "192.0.2.1", rectype := "A", subname := "www" },
                       { content := "10 mail.example.com", rectype := "MX",
                         subname := "mail" }] }]
            "example.com"
          = l1 ++ ({ Content := "192.0.2.1", Name := "www", type := "A" } : DNSRecord) :: l2
        ∧ ∀ x ∈ l1, x.Name ≠ "www")
    ∧ (GetRRByName
        { script :=
            [.ok (.zoneRRs
              { answer :=
                  { domains :=
                      [{ dname := "example.com",
                         rrs := [{ content := "192.0.2.1", rectype := "A",
                                   subname := "www" },
                                 { content := "10 mail.example.com",
                                   rectype := "MX", subname := "mail" }] }] } })],
          calls := [] }
        "example.com" "ftp").1 = .error (.recordNotFound "ftp") :=
  ⟨(getRRByName_first_exact_match
      { answer :=
          { domains :=
              [{ dname := "example.com",
                 rrs := [{ content := "192.0.2.1", rectype := "A",
                           subname := "www" },
                         { content := "10 mail.example.com", rectype := "MX",
                           subname := "mail" }] }] } }
      "example.com" "www" []).1
    { Content := "192.0.2.1", Name := "www", type := "A" } (by decide),
   (getRRByName_first_exact_match
      { answer :=
          { domains :=
              [{ dname := "example.com",
                 rrs := [{ content := "192.0.2.1", rectype := "A",
                           subname := "www" },
                         { content := "10 mail.example.com", rectype := "MX",
                           subname := "mail" }] }] } }
      "example.com" "ftp" []).2.2.1 (by decide)⟩

end Regru
